import Mathlib

set_option maxHeartbeats 1000000
set_option maxRecDepth 8000
set_option linter.unusedVariables false

namespace CephFact

/-- Redaction pattern, a shallow embedding of the regular expressions used by
ceph-fact.  Every pattern the program actually installs is a literal string,
optionally carrying the inline case-insensitivity flag, so a pattern is
modelled as its literal body together with that flag.  The default filters
in the source are the three regexes written with an inline flag before a
literal word; custom filters supplied on the command line are taken as the
literal text the user passed, with no flag added by the program. -/
structure FilterPattern where
  pat : String
  ignoreCase : Bool
  deriving DecidableEq

/-- Boolean test that the first character list is an initial segment of the
second one; the basic step of substring search. -/
def startsWithChars : List Char → List Char → Bool
  | [], _ => true
  | _ :: _, [] => false
  | n :: ns, h :: hs => n == h && startsWithChars ns hs

/-- Boolean substring search: does the needle occur anywhere in the haystack?
This embeds what re.search does on a literal (metacharacter-free) pattern. -/
def containsChars (needle : List Char) : List Char → Bool
  | [] => needle.isEmpty
  | h :: hs => startsWithChars needle (h :: hs) || containsChars needle hs

/-- ASCII lower-casing of one character, the folding relevant to the
case-insensitive patterns of the program (all of which are ASCII words). -/
def lowerChar (c : Char) : Char :=
  if c.isUpper then Char.ofNat (c.toNat + 32) else c

/-- ASCII lower-casing of a character list. -/
def lowerChars (l : List Char) : List Char := l.map lowerChar

/-- Embedding of re.search for the literal patterns the program uses: plain
substring search, after ASCII case folding when the pattern carries the
inline case-insensitivity flag. -/
def reSearch (p : FilterPattern) (s : String) : Bool :=
  if p.ignoreCase then containsChars (lowerChars p.pat.data) (lowerChars s.data)
  else containsChars p.pat.data s.data

/-- Modelled from the claim wording, for comparison with the code: the claim
reads every configured pattern, the custom ones included, as evaluated
case-insensitively.  The code only gives the built-in patterns a
case-insensitivity flag; this definition applies the folding to every
pattern, as the claim words say. -/
def reSearchClaimCI (p : FilterPattern) (s : String) : Bool :=
  containsChars (lowerChars p.pat.data) (lowerChars s.data)

/-- The fixed placeholder written over redacted values (FILTER_PLACEHOLDER). -/
def FILTER_PLACEHOLDER : String := "** HIDDEN **"

/-- The built-in filter list (DEFAULT_CONFIG_FILTERS): three case-insensitive
literal patterns. -/
def DEFAULT_CONFIG_FILTERS : List FilterPattern :=
  [⟨"password", true⟩, ⟨"key", true⟩, ⟨"cert", true⟩]

/-- One structured configuration record, as deserialized from the structured
configuration dump: the three fields the filtering loop reads.  The grouping
field is called section in the source data; that word is a keyword here, so
the field is named sectionLabel. -/
structure ConfigEntry where
  name : String
  sectionLabel : String
  value : String
  deriving DecidableEq

/-- Does the pattern match any of the three fields of an entry?  This is the
field-insensitive reading of one pattern versus one entry. -/
def entryMatches (p : FilterPattern) (e : ConfigEntry) : Bool :=
  reSearch p e.name || reSearch p e.sectionLabel || reSearch p e.value

/-- The inner loop of the structured branch of filter_config: for one pattern
and one entry, the fields name, section, value are tested in that order and
the first match sets the value to the placeholder and stops the field loop. -/
def applyPatternEntry (p : FilterPattern) (e : ConfigEntry) : ConfigEntry :=
  if reSearch p e.name then { e with value := FILTER_PLACEHOLDER }
  else if reSearch p e.sectionLabel then { e with value := FILTER_PLACEHOLDER }
  else if reSearch p e.value then { e with value := FILTER_PLACEHOLDER }
  else e

/-- One pass of a single pattern over the whole entry list.  The source walks
the indices from the last one down to 0 and updates each slot in place; each
slot is visited exactly once and independently of the others, so the pass is
the elementwise image of the slot update. -/
def filterPass (p : FilterPattern) (js : List ConfigEntry) : List ConfigEntry :=
  js.map (applyPatternEntry p)

/-- The structured (json / json-pretty) loop of filter_config: every
configured pattern, in configuration order, makes one pass over the list. -/
def filterEntries (config_filters : List FilterPattern) (js : List ConfigEntry) :
    List ConfigEntry :=
  config_filters.foldl (fun acc p => filterPass p acc) js

/-- All configured patterns applied in order to one entry. -/
def filterEntryAll (config_filters : List FilterPattern) (e : ConfigEntry) : ConfigEntry :=
  config_filters.foldl (fun acc p => applyPatternEntry p acc) e

theorem applyPatternEntry_char (p : FilterPattern) (e : ConfigEntry) :
    applyPatternEntry p e =
      if entryMatches p e then { e with value := FILTER_PLACEHOLDER } else e := by
  unfold applyPatternEntry entryMatches
  cases h1 : reSearch p e.name <;> cases h2 : reSearch p e.sectionLabel <;>
    cases h3 : reSearch p e.value <;> simp [h1, h2, h3]

theorem applyPatternEntry_name (p : FilterPattern) (e : ConfigEntry) :
    (applyPatternEntry p e).name = e.name := by
  rw [applyPatternEntry_char]; split <;> rfl

theorem applyPatternEntry_sectionLabel (p : FilterPattern) (e : ConfigEntry) :
    (applyPatternEntry p e).sectionLabel = e.sectionLabel := by
  rw [applyPatternEntry_char]; split <;> rfl

theorem filterEntries_eq_map (config_filters : List FilterPattern) :
    ∀ js : List ConfigEntry,
      filterEntries config_filters js = js.map (filterEntryAll config_filters) := by
  induction config_filters with
  | nil =>
    intro js
    rw [show filterEntryAll ([] : List FilterPattern) = id from rfl, List.map_id]
    rfl
  | cons p rest ih =>
    intro js
    have h1 : filterEntries (p :: rest) js = filterEntries rest (filterPass p js) := rfl
    rw [h1, ih (filterPass p js)]
    unfold filterPass
    rw [List.map_map]
    rfl

theorem filterEntryAll_char (config_filters : List FilterPattern) :
    ∀ e : ConfigEntry,
      filterEntryAll config_filters e =
        if config_filters.any (fun p => entryMatches p e)
        then { e with value := FILTER_PLACEHOLDER } else e := by
  induction config_filters with
  | nil => intro e; rfl
  | cons p rest ih =>
    intro e
    have h1 : filterEntryAll (p :: rest) e = filterEntryAll rest (applyPatternEntry p e) := rfl
    rw [h1, applyPatternEntry_char]
    cases hm : entryMatches p e with
    | false =>
      rw [if_neg Bool.false_ne_true]
      rw [ih e, List.any_cons, hm, Bool.false_or]
    | true =>
      rw [if_pos rfl]
      rw [List.any_cons, hm, Bool.true_or]
      rw [if_pos rfl]
      rw [ih { e with value := FILTER_PLACEHOLDER }]
      split <;> rfl

theorem filterEntryAll_idem (config_filters : List FilterPattern) (e : ConfigEntry) :
    filterEntryAll config_filters (filterEntryAll config_filters e) =
      filterEntryAll config_filters e := by
  rw [filterEntryAll_char config_filters e]
  cases hm : config_filters.any (fun p => entryMatches p e) with
  | false =>
    rw [if_neg Bool.false_ne_true]
    rw [filterEntryAll_char, hm, if_neg Bool.false_ne_true]
  | true =>
    rw [if_pos rfl]
    rw [filterEntryAll_char]
    split <;> rfl

theorem getQ_map (f : ConfigEntry → ConfigEntry) :
    ∀ (l : List ConfigEntry) (i : Nat), (l.map f).get? i = (l.get? i).map f := by
  intro l
  induction l with
  | nil => intro i; cases i <;> rfl
  | cons a t ih =>
    intro i
    cases i with
    | zero => rfl
    | succ n => exact ih n

/-- One record of the structured configuration dump as it arrives over the
wire, before any field is assumed to be present: each of the three expected
fields may be missing.  Reading a missing field raises a key error in the
source, modelled here by the error side of Except. -/
structure RawEntry where
  name : Option String
  sectionLabel : Option String
  value : Option String
  deriving DecidableEq

/-- The inner field loop of the structured filter branch over a raw record:
fields are read in the order name, section, value, and reading a missing
field fails; a successful match writes the placeholder into the value slot
and stops the field loop.  Writing the value slot re-creates it even when it
was missing, as a dict assignment does. -/
def applyPatternRaw (p : FilterPattern) (e : RawEntry) : Except String RawEntry :=
  match e.name with
  | none => Except.error "KeyError: name"
  | some n =>
    if reSearch p n then Except.ok { e with value := some FILTER_PLACEHOLDER }
    else
      match e.sectionLabel with
      | none => Except.error "KeyError: section"
      | some s =>
        if reSearch p s then Except.ok { e with value := some FILTER_PLACEHOLDER }
        else
          match e.value with
          | none => Except.error "KeyError: value"
          | some v =>
            if reSearch p v then Except.ok { e with value := some FILTER_PLACEHOLDER }
            else Except.ok e

/-- One pass of a single pattern over a raw record list; each slot is visited
exactly once and a key error anywhere aborts the pass. -/
def passRaw (p : FilterPattern) : List RawEntry → Except String (List RawEntry)
  | [] => Except.ok []
  | e :: rest =>
    match applyPatternRaw p e with
    | Except.error m => Except.error m
    | Except.ok e2 =>
      match passRaw p rest with
      | Except.error m => Except.error m
      | Except.ok rest2 => Except.ok (e2 :: rest2)

/-- The structured filter loop over raw records: every configured pattern, in
configuration order, makes one pass; a key error aborts the whole run. -/
def filterEntriesRaw : List FilterPattern → List RawEntry → Except String (List RawEntry)
  | [], js => Except.ok js
  | p :: ps, js =>
    match passRaw p js with
    | Except.error m => Except.error m
    | Except.ok js2 => filterEntriesRaw ps js2

/-- Did the run return a result rather than fail? -/
def exceptIsOk : Except String (List RawEntry) → Bool
  | Except.ok _ => true
  | Except.error _ => false

theorem applyPatternRaw_name_none (p : FilterPattern) (e : RawEntry) (h : e.name = none) :
    applyPatternRaw p e = Except.error "KeyError: name" := by
  unfold applyPatternRaw
  rw [h]

theorem passRaw_error_of_name_none (p : FilterPattern) :
    ∀ js : List RawEntry, (∃ e ∈ js, e.name = none) →
      ∃ m, passRaw p js = Except.error m := by
  intro js
  induction js with
  | nil => intro h; rcases h with ⟨e, he, _⟩; cases he
  | cons x xs ih =>
    intro h
    rcases h with ⟨e, he, hnone⟩
    rcases List.mem_cons.mp he with rfl | hxs
    · exact ⟨"KeyError: name", by unfold passRaw; rw [applyPatternRaw_name_none p e hnone]⟩
    · obtain ⟨m, hm⟩ := ih ⟨e, hxs, hnone⟩
      cases hx : applyPatternRaw p x with
      | error m2 => exact ⟨m2, by unfold passRaw; rw [hx]⟩
      | ok x2 => exact ⟨m, by unfold passRaw; rw [hx, hm]⟩

/-- The external monitor endpoint, abstracted as a pure responder: given the
command name, the per-call timeout, the requested output format and the extra
named arguments, it yields the raw reply buffer decoded as text.  This is the
external client boundary (the mon_command call); the program treats it as an
opaque query function. -/
abbrev Resp := String → Nat → String → List (String × String) → String

/-- Embedding of ceph_mon_command: the command dict (extra arguments plus the
command name and the output format) is handed to the endpoint together with
the timeout, and the raw reply buffer comes back. -/
def ceph_mon_command (resp : Resp) (command : String) (timeout : Nat)
    (output_format : String) (kwargs : List (String × String)) : String :=
  resp command timeout output_format kwargs

/-- One listed device: its identifier, its other listed fields, and the
metrics slot the collector fills in. -/
structure Device where
  devid : String
  rest : List (String × String)
  metrics : List (String × String)
  deriving DecidableEq

/-- The external JSON library boundary, one decode or encode function per
payload shape the program converts.  The program itself never inspects the
text it hands to these functions. -/
structure JsonLib where
  loadsEntries : String → List ConfigEntry
  dumpsEntries : List ConfigEntry → String
  dumpsEntriesPretty : List ConfigEntry → String
  loadsDevices : String → List Device
  dumpsDevices : List Device → String
  loadsMetrics : String → List (String × String)

/-- Embedding of get_health_info: four health queries in a fixed order. -/
def get_health_info (resp : Resp) (timeout : Nat) (output_format : String) :
    List (String × String) :=
  [("stat", ceph_mon_command resp "health" timeout output_format []),
   ("df", ceph_mon_command resp "df" timeout output_format []),
   ("report", ceph_mon_command resp "report" timeout output_format []),
   ("detail", ceph_mon_command resp "health" timeout output_format [("detail", "detail")])]

/-- Embedding of get_mon_info. -/
def get_mon_info (resp : Resp) (timeout : Nat) (output_format : String) :
    List (String × String) :=
  [("stat", ceph_mon_command resp "mon stat" timeout output_format []),
   ("dump", ceph_mon_command resp "mon dump" timeout output_format []),
   ("map", ceph_mon_command resp "mon getmap" timeout output_format []),
   ("metadata", ceph_mon_command resp "mon metadata" timeout output_format [])]

/-- Embedding of get_osd_info. -/
def get_osd_info (resp : Resp) (timeout : Nat) (output_format : String) :
    List (String × String) :=
  [("tree", ceph_mon_command resp "osd tree" timeout output_format []),
   ("df", ceph_mon_command resp "osd df" timeout output_format []),
   ("dump", ceph_mon_command resp "osd dump" timeout output_format []),
   ("stat", ceph_mon_command resp "osd stat" timeout output_format []),
   ("crushmap", ceph_mon_command resp "osd getcrushmap" timeout output_format []),
   ("map", ceph_mon_command resp "osd getmap" timeout output_format []),
   ("metadata", ceph_mon_command resp "osd metadata" timeout output_format []),
   ("perf", ceph_mon_command resp "osd perf" timeout output_format [])]

/-- Embedding of get_mds_info: the metadata query and the mds dump query are
issued first; when the dump reply is empty the newer filesystem dump and
status queries are issued instead (the status one forcing the pretty output
format), otherwise the legacy stat and getmap queries are issued. -/
def get_mds_info (resp : Resp) (timeout : Nat) (output_format : String) :
    List (String × String) :=
  let metadata := ceph_mon_command resp "mds metadata" timeout output_format []
  let dump := ceph_mon_command resp "mds dump" timeout output_format []
  if dump = "" then
    [("metadata", metadata),
     ("dump", ceph_mon_command resp "fs dump" timeout output_format []),
     ("status", ceph_mon_command resp "fs status" timeout "json-pretty" [])]
  else
    [("metadata", metadata),
     ("dump", dump),
     ("stat", ceph_mon_command resp "mds stat" timeout output_format []),
     ("map", ceph_mon_command resp "mds getmap" timeout output_format [])]

/-- Embedding of get_pg_stat_info. -/
def get_pg_stat_info (resp : Resp) (timeout : Nat) (output_format : String) :
    List (String × String) :=
  [("stat", ceph_mon_command resp "pg stat" timeout output_format [])]

/-- The body of the per-device loop of get_device_info: the metrics slot is
reset, the health metrics of the device are fetched, their keys are sorted
and only the record under the last (greatest) key is kept. -/
def enrich_device (resp : Resp) (jl : JsonLib) (timeout : Nat) (output_format : String)
    (device : Device) : Device :=
  let metrics_str :=
    ceph_mon_command resp "device get-health-metrics" timeout output_format
      [("devid", device.devid)]
  let device1 := { device with metrics := [] }
  if metrics_str = "" then device1
  else
    let metrics := jl.loadsMetrics metrics_str
    let metrics_keys := List.insertionSort (fun a b : String => a ≤ b) (metrics.map Prod.fst)
    match metrics_keys.getLast? with
    | none => device1
    | some k =>
      match metrics.lookup k with
      | some record => { device1 with metrics := [(k, record)] }
      | none => device1

/-- Embedding of get_device_info: a health check first; then, when the device
list reply is non-empty, every listed device is enriched with its newest
metric record and the enriched list is serialized under the status key; an
empty device list reply stores the empty buffer under the status key. -/
def get_device_info (resp : Resp) (jl : JsonLib) (timeout : Nat) (output_format : String) :
    List (String × String) :=
  let check := ceph_mon_command resp "device check-health" timeout output_format []
  let device_list_str := ceph_mon_command resp "device ls" timeout "json" []
  if device_list_str = "" then
    [("check_health", check), ("status", "")]
  else
    let device_list :=
      (jl.loadsDevices device_list_str).map (enrich_device resp jl timeout output_format)
    [("check_health", check), ("status", jl.dumpsDevices device_list)]

/-- Embedding of the structured (json and json-pretty) modes of filter_config:
an empty buffer is returned unchanged, otherwise the buffer is decoded, the
pattern passes run over the entry list, and the result is re-encoded, the
pretty encoder being used for the json-pretty mode.  The plain-text mode and
the exit on an unsupported mode are legacy paths no claim exercises and are
not modelled; is_conffile only matters on that plain path. -/
def filter_config (jl : JsonLib) (config_filters : List FilterPattern) (data : String)
    (mode : String) (is_conffile : Bool) : String :=
  if data = "" then data
  else
    let js := filterEntries config_filters (jl.loadsEntries data)
    if mode = "json" then jl.dumpsEntries js else jl.dumpsEntriesPretty js

/-- The flattening step of collect_ceph_information: each sub-key of a
category becomes the report key built from the category tag, an underscore,
the sub-key and the literal json suffix of the format string. -/
def catKeys (cat : String) (info : List (String × String)) : List (String × String) :=
  info.map (fun kv => (cat ++ "_" ++ kv.1 ++ ".json", kv.2))

/-- Embedding of collect_ceph_information.  The module-level default filter
list is mutable state the call both reads and extends, so it is passed in and
the extended list is returned next to the report data.  The ceph_config,
cleanup and log_config parameters are accepted exactly as in the source,
whose body never reads them. -/
def collect_ceph_information (resp : Resp) (jl : JsonLib) (fsid : String)
    (ceph_config : String) (timeout : Nat) (globalFilters : List FilterPattern)
    (cleanup : Bool) (device_health : Bool)
    (custom_config_filters : List FilterPattern) (log_config : Bool) :
    List (String × String) × List FilterPattern :=
  let config_filters := globalFilters ++ custom_config_filters
  let data0 : List (String × String) :=
    [("status.json", ceph_mon_command resp "status" timeout "json" []),
     ("versions.json", ceph_mon_command resp "versions" timeout "json" []),
     ("features.json", ceph_mon_command resp "features" timeout "json" []),
     ("fsid", fsid ++ "\n"),
     ("config.json",
       filter_config jl config_filters
         (ceph_mon_command resp "config dump" timeout "json" []) "json" false)]
  let data1 := data0 ++ catKeys "health" (get_health_info resp timeout "json")
  let data2 := data1 ++ catKeys "mon" (get_mon_info resp timeout "json")
  let data3 := data2 ++ catKeys "osd" (get_osd_info resp timeout "json")
  let data4 := data3 ++ catKeys "pg" (get_pg_stat_info resp timeout "json")
  let data5 := data4 ++ catKeys "mds" (get_mds_info resp timeout "json")
  let data6 :=
    if device_health then data5 ++ catKeys "device" (get_device_info resp jl timeout "json")
    else data5
  (data6, config_filters)

theorem getLastQ_some : ∀ l : List String, l ≠ [] → ∃ k, l.getLast? = some k := by
  intro l
  induction l with
  | nil => intro h; exact absurd rfl h
  | cons a t ih =>
    intro _
    cases t with
    | nil => exact ⟨a, rfl⟩
    | cons b u =>
      obtain ⟨k, hk⟩ := ih (by simp)
      exact ⟨k, by rw [List.getLast?_cons_cons]; exact hk⟩

theorem getLastQ_mem : ∀ (l : List String) (k : String), l.getLast? = some k → k ∈ l := by
  intro l
  induction l with
  | nil => intro k hk; cases hk
  | cons a t ih =>
    intro k hk
    cases t with
    | nil =>
      have : a = k := by simpa using hk
      simp [this]
    | cons b u =>
      rw [List.getLast?_cons_cons] at hk
      exact List.mem_cons.mpr (Or.inr (ih k hk))

theorem sorted_getLastQ_ge :
    ∀ l : List String, l.Sorted (fun a b : String => a ≤ b) →
      ∀ k, l.getLast? = some k → ∀ y ∈ l, y ≤ k := by
  intro l
  induction l with
  | nil => intro _ k hk; cases hk
  | cons a t ih =>
    intro hs k hk y hy
    rcases List.pairwise_cons.mp hs with ⟨ha, ht⟩
    cases t with
    | nil =>
      have hak : a = k := by simpa using hk
      have hya : y = a := by simpa using hy
      simp [hya, hak]
    | cons b u =>
      rw [List.getLast?_cons_cons] at hk
      rcases List.mem_cons.mp hy with rfl | hyt
      · exact ha k (getLastQ_mem (b :: u) k hk)
      · exact ih ht k hk y hyt

theorem lookup_of_mem_keys :
    ∀ (m : List (String × String)) (k : String),
      k ∈ m.map Prod.fst → ∃ v, m.lookup k = some v := by
  intro m
  induction m with
  | nil => intro k hk; cases hk
  | cons a t ih =>
    intro k hk
    by_cases h : k = a.1
    · exact ⟨a.2, by simp [List.lookup, h]⟩
    · rw [List.map_cons] at hk
      rcases List.mem_cons.mp hk with h1 | h2
      · exact absurd h1 h
      · obtain ⟨v, hv⟩ := ih k h2
        refine ⟨v, ?_⟩
        have hb : (k == a.1) = false := beq_eq_false_iff_ne.mpr h
        simp [List.lookup, hb, hv]

/-- C1: for every sequence of ConfigEntry records and every pattern list, the
json-mode redaction loop returns a sequence with the same number of entries,
in the same order and with the same field shape: position by position the
name and section fields are unchanged and the value field is either the
original value or exactly the placeholder string, never a partial
replacement. -/
theorem c1_shape_preserved (filters : List FilterPattern) (js : List ConfigEntry) :
    (filterEntries filters js).length = js.length ∧
    ∀ i : Nat,
      ((filterEntries filters js).get? i).map ConfigEntry.name =
        (js.get? i).map ConfigEntry.name ∧
      ((filterEntries filters js).get? i).map ConfigEntry.sectionLabel =
        (js.get? i).map ConfigEntry.sectionLabel ∧
      (((filterEntries filters js).get? i).map ConfigEntry.value =
         (js.get? i).map ConfigEntry.value ∨
       ((filterEntries filters js).get? i).map ConfigEntry.value =
         (js.get? i).map (fun _ => FILTER_PLACEHOLDER)) := by
  constructor
  · rw [filterEntries_eq_map, List.length_map]
  · intro i
    rw [filterEntries_eq_map, getQ_map]
    cases h : js.get? i with
    | none => exact ⟨rfl, rfl, Or.inl rfl⟩
    | some e =>
      simp only [Option.map_some']
      rw [filterEntryAll_char]
      split
      · exact ⟨rfl, rfl, Or.inr rfl⟩
      · exact ⟨rfl, rfl, Or.inl rfl⟩

/-- The custom pattern of the C2 counterexample, as a user would pass it on
the command line: a literal with no case-insensitivity flag. -/
def customSecret : FilterPattern := ⟨"SECRET", false⟩

/-- The entry of the C2 counterexample. -/
def entrySecret : ConfigEntry := ⟨"secret_stuff", "global", "xyz"⟩

/-- C2 counterexample: with the custom pattern SECRET configured after the
built-ins, the entry named secret_stuff is matched by that pattern under the
case-insensitive evaluation the claim describes for every pattern, yet the
code returns the entry untouched, because a custom pattern is evaluated with
its own case sensitivity. -/
theorem c2_counterexample :
    filterEntries (DEFAULT_CONFIG_FILTERS ++ [customSecret]) [entrySecret] = [entrySecret] ∧
    reSearchClaimCI customSecret entrySecret.name = true ∧
    entrySecret.value ≠ FILTER_PLACEHOLDER :=
  ⟨by decide, by decide, by decide⟩

/-- C2 (amended): in a json-mode redaction run an entry's value is set to the
placeholder if and only if some configured pattern — built-ins first, then
custom patterns, the built-ins case-insensitive through their inline flag and
the custom ones evaluated with the case sensitivity of the pattern itself —
matches its name, section or value; per entry and pattern the fields are
tested in the priority order name, section, value and testing stops at the
first matching field (which yields the same result as matching any field);
an entry matched by no pattern is returned completely unchanged. -/
theorem c2_redaction_condition (filters : List FilterPattern) (js : List ConfigEntry)
    (i : Nat) :
    ((filterEntries filters js).get? i =
       (js.get? i).map fun e =>
         if filters.any (fun p => entryMatches p e)
         then { e with value := FILTER_PLACEHOLDER } else e) ∧
    (∀ e, js.get? i = some e → (∀ p ∈ filters, entryMatches p e = false) →
       (filterEntries filters js).get? i = some e) ∧
    (∀ e, js.get? i = some e → e.value ≠ FILTER_PLACEHOLDER →
       ((filterEntries filters js).get? i = some { e with value := FILTER_PLACEHOLDER } ↔
        ∃ p ∈ filters, entryMatches p e = true)) ∧
    (∀ (p : FilterPattern) (e : ConfigEntry),
       applyPatternEntry p e =
         if entryMatches p e then { e with value := FILTER_PLACEHOLDER } else e) := by
  refine ⟨?_, ?_, ?_, applyPatternEntry_char⟩
  · rw [filterEntries_eq_map, getQ_map]
    cases h : js.get? i with
    | none => rfl
    | some e =>
      simp only [Option.map_some']
      rw [filterEntryAll_char]
  · intro e he hnone
    rw [filterEntries_eq_map, getQ_map, he]
    simp only [Option.map_some']
    rw [filterEntryAll_char]
    have hfa : filters.any (fun p => entryMatches p e) = false := by
      rw [List.any_eq_false]
      intro p hp hc
      rw [hnone p hp] at hc
      cases hc
    rw [hfa, if_neg Bool.false_ne_true]
  · intro e he hval
    rw [filterEntries_eq_map, getQ_map, he]
    simp only [Option.map_some']
    rw [filterEntryAll_char]
    constructor
    · intro hsome
      cases hm : filters.any (fun p => entryMatches p e) with
      | true => exact List.any_eq_true.mp hm
      | false =>
        rw [hm, if_neg Bool.false_ne_true] at hsome
        have heq := Option.some.inj hsome
        have hv := congrArg ConfigEntry.value heq
        exact absurd hv hval
    · intro hex
      rw [List.any_eq_true.mpr hex, if_pos rfl]

/-- The matched entry of the C2 and C7 witnesses, from the scenario of the
specification. -/
def entryPwd : ConfigEntry := ⟨"some_password", "client", "s3cr3t"⟩

/-- Witness for the amended C2 at a concrete entry. -/
theorem c2_redaction_condition_w :
    (filterEntries DEFAULT_CONFIG_FILTERS [entryPwd]).get? 0 =
        some { entryPwd with value := FILTER_PLACEHOLDER } ↔
      ∃ p ∈ DEFAULT_CONFIG_FILTERS, entryMatches p entryPwd = true :=
  (c2_redaction_condition DEFAULT_CONFIG_FILTERS [entryPwd] 0).2.2.1 entryPwd rfl (by decide)

/-- C7: applying the json-mode redaction twice with the same pattern list is
idempotent, provided no configured pattern matches the placeholder string;
and the built-in patterns never match the placeholder string. -/
theorem c7_idempotent :
    (∀ p ∈ DEFAULT_CONFIG_FILTERS, reSearch p FILTER_PLACEHOLDER = false) ∧
    ∀ (filters : List FilterPattern) (js : List ConfigEntry),
      (∀ p ∈ filters, reSearch p FILTER_PLACEHOLDER = false) →
      filterEntries filters (filterEntries filters js) = filterEntries filters js := by
  constructor
  · decide
  · intro filters js _
    rw [filterEntries_eq_map, filterEntries_eq_map, List.map_map]
    exact List.map_congr_left fun a _ => filterEntryAll_idem filters a

/-- Witness for C7 at a concrete list and the built-in patterns. -/
theorem c7_idempotent_w :
    filterEntries DEFAULT_CONFIG_FILTERS
        (filterEntries DEFAULT_CONFIG_FILTERS [entryPwd]) =
      filterEntries DEFAULT_CONFIG_FILTERS [entryPwd] :=
  c7_idempotent.2 DEFAULT_CONFIG_FILTERS [entryPwd] (by decide)

/-- The malformed record of the C8 counterexample: the value field is
missing, but every built-in pattern matches the name field. -/
def rawNoValue : RawEntry := ⟨some "passwordkeycert", some "s", none⟩

/-- C8 counterexample: a non-empty structured input containing an entry that
lacks the value field on which json-mode redaction nevertheless returns a
result instead of raising: every configured pattern matches the name field
first, so the missing field is never probed. -/
theorem c8_counterexample :
    filterEntriesRaw DEFAULT_CONFIG_FILTERS [rawNoValue] =
        Except.ok [⟨some "passwordkeycert", some "s", some FILTER_PLACEHOLDER⟩] ∧
    rawNoValue.value = none ∧ ([rawNoValue] : List RawEntry) ≠ [] :=
  ⟨rfl, rfl, by decide⟩

/-- C8 (amended): json-mode redaction over structured input raises a
data-format (key) error whenever some entry lacks the name field and at least
one pattern is configured — the name field is always the first one probed, so
its absence can never be skipped over; no substitute field is guessed.  An
entry missing only a later field escapes the error just when every pattern
matches an earlier field of it. -/
theorem c8_missing_name_fails (filters : List FilterPattern) (js : List RawEntry)
    (hf : filters ≠ []) (hmiss : ∃ e ∈ js, e.name = none) :
    exceptIsOk (filterEntriesRaw filters js) = false := by
  cases filters with
  | nil => exact absurd rfl hf
  | cons p ps =>
    obtain ⟨m, hm⟩ := passRaw_error_of_name_none p js hmiss
    unfold filterEntriesRaw
    rw [hm]
    rfl

/-- The malformed record of the C8 witness: the name field is missing. -/
def rawNoName : RawEntry := ⟨none, some "global", some "v"⟩

/-- Witness for the amended C8 at a concrete malformed input. -/
theorem c8_missing_name_fails_w :
    exceptIsOk (filterEntriesRaw DEFAULT_CONFIG_FILTERS [rawNoName]) = false :=
  c8_missing_name_fails DEFAULT_CONFIG_FILTERS [rawNoName] (by decide)
    ⟨rawNoName, by decide, rfl⟩

theorem catKeys_key (cat : String) (info : List (String × String)) (k v : String)
    (h : (k, v) ∈ catKeys cat info) : ∃ sub, k = cat ++ "_" ++ sub ++ ".json" := by
  rcases List.mem_map.mp h with ⟨kv, _, heq⟩
  exact ⟨kv.1, (congrArg Prod.fst heq).symm⟩

/-- A responder whose mds dump query returns data, as a legacy cluster
replies; every other query returns the empty buffer. -/
def respLegacy : Resp := fun c _ _ _ => if c = "mds dump" then "mdsdump-data" else ""

/-- A responder every query of which returns the empty buffer. -/
def respEmpty : Resp := fun _ _ _ _ => ""

/-- A JSON boundary whose decoders return empty structures and whose device
encoder returns the empty-array encoding, used for concrete runs. -/
def jlEmpty : JsonLib :=
  ⟨fun _ => [], fun _ => "", fun _ => "", fun _ => [], fun _ => "[]", fun _ => []⟩

/-- C3 counterexample: a run in which the mds dump query returns data takes
the legacy branch of get_mds_info and merges exactly the keys
mds_metadata.json, mds_dump.json, mds_stat.json and mds_map.json into the
report — the legacy stat and map keys are present and no status key is. -/
theorem c3_counterexample :
    (catKeys "mds" (get_mds_info respLegacy 10 "json")).map Prod.fst =
        ["mds_metadata.json", "mds_dump.json", "mds_stat.json", "mds_map.json"] ∧
    "mds_stat.json" ∈ (catKeys "mds" (get_mds_info respLegacy 10 "json")).map Prod.fst ∧
    ¬ ("mds_status.json" ∈
        (catKeys "mds" (get_mds_info respLegacy 10 "json")).map Prod.fst) :=
  ⟨by decide, by decide, by decide⟩

/-- C3 (amended): the metadata-service category branches on whether the
legacy mds dump query returned data: when the reply is empty the filesystem
dump and status queries are issued and the category contributes exactly the
report keys mds_metadata.json, mds_dump.json and mds_status.json; when it is
non-empty the legacy stat and getmap queries are issued and the category
contributes exactly mds_metadata.json, mds_dump.json, mds_stat.json and
mds_map.json. -/
theorem c3_mds_keys (resp : Resp) (timeout : Nat) (fmt : String) :
    (ceph_mon_command resp "mds dump" timeout fmt [] = "" →
       (catKeys "mds" (get_mds_info resp timeout fmt)).map Prod.fst =
         ["mds_metadata.json", "mds_dump.json", "mds_status.json"]) ∧
    (ceph_mon_command resp "mds dump" timeout fmt [] ≠ "" →
       (catKeys "mds" (get_mds_info resp timeout fmt)).map Prod.fst =
         ["mds_metadata.json", "mds_dump.json", "mds_stat.json", "mds_map.json"]) := by
  constructor
  · intro h
    simp only [get_mds_info]
    rw [if_pos h]
    rfl
  · intro h
    simp only [get_mds_info]
    rw [if_neg h]
    rfl

/-- Witness for the amended C3: one modern run and one legacy run. -/
theorem c3_mds_keys_w :
    (catKeys "mds" (get_mds_info respEmpty 10 "json")).map Prod.fst =
        ["mds_metadata.json", "mds_dump.json", "mds_status.json"] ∧
    (catKeys "mds" (get_mds_info respLegacy 10 "json")).map Prod.fst =
        ["mds_metadata.json", "mds_dump.json", "mds_stat.json", "mds_map.json"] :=
  ⟨(c3_mds_keys respEmpty 10 "json").1 rfl, (c3_mds_keys respLegacy 10 "json").2 (by decide)⟩

/-- C4 counterexample: a concrete run in which the object-storage-daemon
tree result is merged under the key carrying the appended json suffix, while
no key equal to the bare prefix-subkey concatenation occurs anywhere in the
report. -/
theorem c4_counterexample :
    "osd_tree.json" ∈ (collect_ceph_information respEmpty jlEmpty "fsid0" "conf" 10
        DEFAULT_CONFIG_FILTERS true false [] false).1.map Prod.fst ∧
    ¬ ("osd_tree" ∈ (collect_ceph_information respEmpty jlEmpty "fsid0" "conf" 10
        DEFAULT_CONFIG_FILTERS true false [] false).1.map Prod.fst) :=
  ⟨by decide, by decide⟩

/-- C4 (amended): every category result is merged into the report under the
key formed of the category prefix, one underscore, the sub-key, and then the
literal suffix .json appended by the format string; the only report keys not
of that form are the five fixed top-level ones. -/
theorem c4_report_keys (resp : Resp) (jl : JsonLib) (fsid ceph_config : String)
    (timeout : Nat) (gf : List FilterPattern) (cleanup device_health : Bool)
    (custom : List FilterPattern) (log_config : Bool) (k v : String)
    (hmem : (k, v) ∈ (collect_ceph_information resp jl fsid ceph_config timeout gf
        cleanup device_health custom log_config).1) :
    k ∈ (["status.json", "versions.json", "features.json", "fsid", "config.json"] :
        List String) ∨
    ∃ cat sub, cat ∈ (["health", "mon", "osd", "pg", "mds", "device"] : List String) ∧
      k = cat ++ "_" ++ sub ++ ".json" := by
  simp only [collect_ceph_information] at hmem
  split at hmem
  · simp only [List.mem_append] at hmem
    rcases hmem with ((((((h | h) | h) | h) | h) | h) | h)
    · left
      simp only [List.mem_cons, List.not_mem_nil, or_false, Prod.mk.injEq] at h
      rcases h with ⟨hk, -⟩ | ⟨hk, -⟩ | ⟨hk, -⟩ | ⟨hk, -⟩ | ⟨hk, -⟩ <;> subst hk <;> decide
    · rcases catKeys_key _ _ _ _ h with ⟨sub, hsub⟩
      exact Or.inr ⟨"health", sub, by decide, hsub⟩
    · rcases catKeys_key _ _ _ _ h with ⟨sub, hsub⟩
      exact Or.inr ⟨"mon", sub, by decide, hsub⟩
    · rcases catKeys_key _ _ _ _ h with ⟨sub, hsub⟩
      exact Or.inr ⟨"osd", sub, by decide, hsub⟩
    · rcases catKeys_key _ _ _ _ h with ⟨sub, hsub⟩
      exact Or.inr ⟨"pg", sub, by decide, hsub⟩
    · rcases catKeys_key _ _ _ _ h with ⟨sub, hsub⟩
      exact Or.inr ⟨"mds", sub, by decide, hsub⟩
    · rcases catKeys_key _ _ _ _ h with ⟨sub, hsub⟩
      exact Or.inr ⟨"device", sub, by decide, hsub⟩
  · simp only [List.mem_append] at hmem
    rcases hmem with (((((h | h) | h) | h) | h) | h)
    · left
      simp only [List.mem_cons, List.not_mem_nil, or_false, Prod.mk.injEq] at h
      rcases h with ⟨hk, -⟩ | ⟨hk, -⟩ | ⟨hk, -⟩ | ⟨hk, -⟩ | ⟨hk, -⟩ <;> subst hk <;> decide
    · rcases catKeys_key _ _ _ _ h with ⟨sub, hsub⟩
      exact Or.inr ⟨"health", sub, by decide, hsub⟩
    · rcases catKeys_key _ _ _ _ h with ⟨sub, hsub⟩
      exact Or.inr ⟨"mon", sub, by decide, hsub⟩
    · rcases catKeys_key _ _ _ _ h with ⟨sub, hsub⟩
      exact Or.inr ⟨"osd", sub, by decide, hsub⟩
    · rcases catKeys_key _ _ _ _ h with ⟨sub, hsub⟩
      exact Or.inr ⟨"pg", sub, by decide, hsub⟩
    · rcases catKeys_key _ _ _ _ h with ⟨sub, hsub⟩
      exact Or.inr ⟨"mds", sub, by decide, hsub⟩

/-- Witness for the amended C4 at a concrete report entry. -/
theorem c4_report_keys_w :
    "osd_tree.json" ∈ (["status.json", "versions.json", "features.json", "fsid",
        "config.json"] : List String) ∨
    ∃ cat sub, cat ∈ (["health", "mon", "osd", "pg", "mds", "device"] : List String) ∧
      "osd_tree.json" = cat ++ "_" ++ sub ++ ".json" :=
  c4_report_keys respEmpty jlEmpty "fsid0" "conf" 10 DEFAULT_CONFIG_FILTERS true false []
    false "osd_tree.json" "" (by decide)

/-- A responder whose device list query returns the empty buffer and whose
health check returns data. -/
def respDev : Resp := fun c _ _ _ => if c = "device ls" then "" else "CH"

/-- C5 counterexample: with the device list reply absent (empty buffer), the
status entry of the device category holds the empty buffer, which is not the
empty-array encoding that the serialization of an empty list produces. -/
theorem c5_counterexample :
    (get_device_info respDev jlEmpty 10 "json").lookup "status" = some "" ∧
    jlEmpty.dumpsDevices [] = "[]" ∧ ("" : String) ≠ "[]" :=
  ⟨rfl, rfl, by decide⟩

/-- C5 (amended): when the device list query returns an absent (empty)
buffer, the run does not fail: the device category still produces both its
entries, the status entry holding the empty buffer — not the encoding of an
empty list — and collection continues; a non-empty reply that decodes to an
empty device list yields the empty-array encoding under the status key. -/
theorem c5_empty_devices (resp : Resp) (jl : JsonLib) (timeout : Nat) (fmt : String) :
    (ceph_mon_command resp "device ls" timeout "json" [] = "" →
       get_device_info resp jl timeout fmt =
         [("check_health", ceph_mon_command resp "device check-health" timeout fmt []),
          ("status", "")]) ∧
    (ceph_mon_command resp "device ls" timeout "json" [] ≠ "" →
     jl.loadsDevices (ceph_mon_command resp "device ls" timeout "json" []) = [] →
       (get_device_info resp jl timeout fmt).lookup "status" =
         some (jl.dumpsDevices [])) := by
  constructor
  · intro h
    simp only [get_device_info]
    rw [if_pos h]
  · intro h hl
    simp only [get_device_info]
    rw [if_neg h, hl]
    rfl

/-- A responder whose device list query returns a non-empty buffer that
decodes to an empty list under the empty JSON boundary. -/
def respDevEmptyList : Resp := fun c _ _ _ => if c = "device ls" then "[]" else "x"

/-- Witness for the amended C5: one absent-reply run and one empty-list run. -/
theorem c5_empty_devices_w :
    get_device_info respDev jlEmpty 10 "json" =
        [("check_health", "CH"), ("status", "")] ∧
    (get_device_info respDevEmptyList jlEmpty 10 "json").lookup "status" =
        some (jlEmpty.dumpsDevices []) :=
  ⟨(c5_empty_devices respDev jlEmpty 10 "json").1 rfl,
   (c5_empty_devices respDevEmptyList jlEmpty 10 "json").2 (by decide) rfl⟩

/-- C6: for every listed device whose health-metrics query returns a
non-empty mapping, the collector keeps exactly one metric record for the
device — the record stored under the lexicographically greatest key of the
mapping — and, whenever the device list reply is non-empty, nests the
enriched device list under the status sub-key. -/
theorem c6_newest_metric (resp : Resp) (jl : JsonLib) (timeout : Nat) (fmt : String)
    (d : Device) :
    (∀ mstr, mstr = ceph_mon_command resp "device get-health-metrics" timeout fmt
          [("devid", d.devid)] →
       mstr ≠ "" → jl.loadsMetrics mstr ≠ [] →
       ∃ k v, (enrich_device resp jl timeout fmt d).metrics = [(k, v)] ∧
         (jl.loadsMetrics mstr).lookup k = some v ∧
         k ∈ (jl.loadsMetrics mstr).map Prod.fst ∧
         ∀ y ∈ (jl.loadsMetrics mstr).map Prod.fst, y ≤ k) ∧
    (ceph_mon_command resp "device ls" timeout "json" [] ≠ "" →
       (get_device_info resp jl timeout fmt).lookup "status" =
         some (jl.dumpsDevices
           ((jl.loadsDevices (ceph_mon_command resp "device ls" timeout "json" [])).map
             (enrich_device resp jl timeout fmt)))) := by
  constructor
  · intro mstr hm h1 h2
    have hkeys : (jl.loadsMetrics mstr).map Prod.fst ≠ [] := by
      intro hc
      apply h2
      cases hl : jl.loadsMetrics mstr with
      | nil => rfl
      | cons a t => rw [hl] at hc; cases hc
    have hperm := List.perm_insertionSort (fun a b : String => a ≤ b)
        ((jl.loadsMetrics mstr).map Prod.fst)
    have hsne : List.insertionSort (fun a b : String => a ≤ b)
        ((jl.loadsMetrics mstr).map Prod.fst) ≠ [] := by
      intro hc
      apply hkeys
      have hlen := hperm.length_eq
      rw [hc] at hlen
      exact List.length_eq_zero.mp hlen.symm
    obtain ⟨k, hk⟩ := getLastQ_some _ hsne
    have hkmemS := getLastQ_mem _ _ hk
    have hkmem : k ∈ (jl.loadsMetrics mstr).map Prod.fst := hperm.mem_iff.mp hkmemS
    obtain ⟨v, hv⟩ := lookup_of_mem_keys _ _ hkmem
    refine ⟨k, v, ?_, hv, hkmem, ?_⟩
    · simp only [enrich_device]
      rw [← hm]
      rw [if_neg h1]
      simp only [hk, hv]
    · intro y hy
      have hsorted := List.sorted_insertionSort (fun a b : String => a ≤ b)
          ((jl.loadsMetrics mstr).map Prod.fst)
      exact sorted_getLastQ_ge _ hsorted k hk y (hperm.mem_iff.mpr hy)
  · intro h
    simp only [get_device_info]
    rw [if_neg h]
    rfl

/-- A responder for the C6 witness: a device list and per-device metrics. -/
def respDev2 : Resp := fun c _ _ _ =>
  if c = "device ls" then "DL" else if c = "device get-health-metrics" then "MX" else ""

/-- A JSON boundary for the C6 witness: two listed devices and a metrics
mapping with the two date keys of the specification scenario. -/
def jlDev : JsonLib :=
  ⟨fun _ => [], fun _ => "", fun _ => "",
   fun _ => [⟨"dev1", [], []⟩, ⟨"dev2", [], []⟩],
   fun _ => "DUMPED",
   fun _ => [("2023-01-01", "a"), ("2023-02-01", "b")]⟩

/-- Witness for C6 at a concrete device and metrics mapping. -/
theorem c6_newest_metric_w :
    (∃ k v, (enrich_device respDev2 jlDev 10 "json" ⟨"dev1", [], []⟩).metrics = [(k, v)] ∧
       (jlDev.loadsMetrics "MX").lookup k = some v ∧
       k ∈ (jlDev.loadsMetrics "MX").map Prod.fst ∧
       ∀ y ∈ (jlDev.loadsMetrics "MX").map Prod.fst, y ≤ k) ∧
    (get_device_info respDev2 jlDev 10 "json").lookup "status" =
        some (jlDev.dumpsDevices ((jlDev.loadsDevices
          (ceph_mon_command respDev2 "device ls" 10 "json" [])).map
            (enrich_device respDev2 jlDev 10 "json"))) :=
  ⟨(c6_newest_metric respDev2 jlDev 10 "json" ⟨"dev1", [], []⟩).1 "MX" rfl (by decide)
     (by decide),
   (c6_newest_metric respDev2 jlDev 10 "json" ⟨"dev1", [], []⟩).2 (by decide)⟩

/-- C9: a call of collect_ceph_information with a non-empty custom pattern
list extends the module-level default pattern list in place, so a second
call that passes no custom patterns of its own still filters with the first
call's custom patterns in addition to the built-ins. -/
theorem c9_filters_persist (custom : List FilterPattern) (hc : custom ≠ [])
    (resp resp2 : Resp) (jl jl2 : JsonLib) (fsid fsid2 conf conf2 : String)
    (timeout timeout2 : Nat) (cu cu2 dh dh2 lg lg2 : Bool) :
    (collect_ceph_information resp2 jl2 fsid2 conf2 timeout2
        (collect_ceph_information resp jl fsid conf timeout DEFAULT_CONFIG_FILTERS
          cu dh custom lg).2
        cu2 dh2 [] lg2).2 = DEFAULT_CONFIG_FILTERS ++ custom ∧
    DEFAULT_CONFIG_FILTERS ++ custom ≠ DEFAULT_CONFIG_FILTERS := by
  constructor
  · show (DEFAULT_CONFIG_FILTERS ++ custom) ++ [] = DEFAULT_CONFIG_FILTERS ++ custom
    exact List.append_nil _
  · intro h
    have hlen := congrArg List.length h
    rw [List.length_append] at hlen
    have hz : custom.length = 0 := by omega
    exact hc (List.length_eq_zero.mp hz)

/-- The custom pattern of the C9 witness. -/
def customToken : FilterPattern := ⟨"token", false⟩

/-- Witness for C9: two concrete consecutive calls. -/
theorem c9_filters_persist_w :
    (collect_ceph_information respEmpty jlEmpty "f2" "c2" 10
        (collect_ceph_information respEmpty jlEmpty "f1" "c1" 10 DEFAULT_CONFIG_FILTERS
          true false [customToken] false).2
        true false [] false).2 = DEFAULT_CONFIG_FILTERS ++ [customToken] ∧
    DEFAULT_CONFIG_FILTERS ++ [customToken] ≠ DEFAULT_CONFIG_FILTERS :=
  c9_filters_persist [customToken] (by decide) respEmpty respEmpty jlEmpty jlEmpty
    "f1" "f2" "c1" "c2" 10 10 true true false false false false

/-- C10: for fixed query responses and fixed values of the other parameters,
the report returned by collect_ceph_information is identical for all values
of the cleanup and log_config parameters: neither the no-cleanup nor the
log-gathered-config flag has any effect on the produced report. -/
theorem c10_flags_no_effect (resp : Resp) (jl : JsonLib) (fsid conf : String)
    (timeout : Nat) (gf : List FilterPattern) (dh : Bool)
    (custom : List FilterPattern) (cu1 cu2 lg1 lg2 : Bool) :
    collect_ceph_information resp jl fsid conf timeout gf cu1 dh custom lg1 =
      collect_ceph_information resp jl fsid conf timeout gf cu2 dh custom lg2 := rfl

end CephFact
